import Mathlib

/-!
Shallow embedding of the Remote-Sensing-Demo repository (src/Raster.py and
src/vector_utils.py) and verification of its specification.

Modelling conventions:
* numpy float32 pixel values, gains, offsets and wavelengths are modelled as
  rationals (exact arithmetic; the spec states the linear calibration law, not
  floating-point rounding);
* a datacube is a band-major nested list, band then row then column, mirroring
  the band x row x column numpy array returned by rasterio read;
* Python attributes that may be None are Option-valued; Python code that can
  raise is Option- or Except-valued in the embedding;
* the external collaborators (rasterio open/read, geopandas to_crs, the
  rasterio mask primitive, and the XML parser) are parameters of the
  operations that call them: the repository code orchestrates them and the
  embedding quantifies over their behaviour.
-/

namespace RSDemo

/-- A datacube: band-major nested list of pixel values (band, row, column),
mirroring the 3-D numpy array held in Raster._datacube. -/
abbrev Datacube := List (List (List ℚ))

/-- One entry of the bandID table of the sidecar XML descriptor: the tags read
by Raster.get_wavelengths and Raster.get_gains_and_offsets. -/
structure BandID where
  wavelengthCenterOfBand : ℚ
  GainOfBand : ℚ
  OffsetOfBand : ℚ
  deriving DecidableEq, Repr

/-- The bandCharacterisation node of the metadata tree. -/
structure BandCharacterisation where
  bandID : List BandID
  deriving DecidableEq, Repr

/-- The specific node of the metadata tree. -/
structure Specific where
  bandCharacterisation : BandCharacterisation
  deriving DecidableEq, Repr

/-- The level_X node of the metadata tree. -/
structure LevelX where
  specific : Specific
  deriving DecidableEq, Repr

/-- The parsed sidecar metadata tree (result of xmltodict.parse), restricted to
the nested tag path the code reads: level_X / specific / bandCharacterisation /
bandID. -/
structure Metadata where
  level_X : LevelX
  deriving DecidableEq, Repr

/-- The band table of a metadata tree:
metadata[level_X][specific][bandCharacterisation][bandID]. -/
def Metadata.bands (m : Metadata) : List BandID :=
  m.level_X.specific.bandCharacterisation.bandID

/-- Raster.get_wavelengths: the wavelengthCenterOfBand of every band of the
metadata tree, in table order. -/
def get_wavelengths (m : Metadata) : List ℚ :=
  (m.bands).map (fun band => band.wavelengthCenterOfBand)

/-- Raster.get_gains_and_offsets: the GainOfBand and OffsetOfBand vectors of
the metadata tree, in table order. -/
def get_gains_and_offsets (m : Metadata) : List ℚ × List ℚ :=
  ((m.bands).map (fun band => band.GainOfBand),
   (m.bands).map (fun band => band.OffsetOfBand))

/-- A coordinate reference system, identified as pyproj does by its code. -/
structure CRS where
  code : ℕ
  deriving DecidableEq, Repr

/-- pyproj CRS.from_epsg. -/
def CRS.from_epsg (n : ℕ) : CRS := ⟨n⟩

/-- An affine geotransform (the six coefficients of a rasterio transform). -/
structure Affine where
  a : ℚ
  b : ℚ
  c : ℚ
  d : ℚ
  e : ℚ
  f : ℚ
  deriving DecidableEq, Repr

/-- A rasterio profile record: CRS, geotransform, dimensions, band count,
pixel type, driver and nodata value. -/
structure Profile where
  driver : String
  dtype : String
  nodata : Option ℚ
  width : ℕ
  height : ℕ
  count : ℕ
  crs : CRS
  transform : Affine
  deriving DecidableEq, Repr

/-- The Raster object: wavelength vector, datacube, metadata tree, profile,
name and source path.  Every attribute may be None in Python, hence Option. -/
structure Raster where
  wavelength : Option (List ℚ)
  datacube : Option Datacube
  metadata : Option Metadata
  profile : Option Profile
  name : Option String
  path : Option String
  deriving DecidableEq, Repr

/-! ### Path handling (os.path as used by find_metadata_file) -/

/-- os.path.basename: the characters after the last slash. -/
def basename (p : String) : String :=
  ⟨(p.data.reverse.takeWhile (fun c => c ≠ '/')).reverse⟩

/-- os.path.dirname: the characters up to the last slash, with trailing
slashes stripped unless the head is nothing but slashes. -/
def dirname (p : String) : String :=
  let hr := p.data.reverse.dropWhile (fun c => c ≠ '/')
  if hr.any (fun c => c ≠ '/') then ⟨(hr.dropWhile (fun c => c = '/')).reverse⟩
  else ⟨hr.reverse⟩

/-- os.path.join for one component: an absolute second argument wins,
otherwise a single slash separates directory and file. -/
def path_join (d f : String) : String :=
  if f.data.head? = some '/' then f
  else if d = "" then f
  else if d.data.getLast? = some '/' then d ++ f
  else d ++ "/" ++ f

/-- Python str.replace on character lists, fuelled by the input length so the
recursion is structural; faithful whenever the pattern is nonempty (as it is
at the one call site). -/
def replaceAux (pat repl : List Char) : ℕ → List Char → List Char
  | 0, cs => cs
  | _ + 1, [] => []
  | n + 1, c :: cs' =>
    if pat.isPrefixOf (c :: cs') then
      repl ++ replaceAux pat repl n ((c :: cs').drop pat.length)
    else c :: replaceAux pat repl n cs'

/-- Python str.replace: every non-overlapping occurrence of pat, left to
right, becomes repl. -/
def replaceSub (s pat repl : String) : String :=
  ⟨replaceAux pat.data repl.data s.data.length s.data⟩

/-- The derived sidecar filename: the raster basename with the substring
SPECTRAL_IMAGE.TIF replaced by METADATA.XML. -/
def xml_filename_of (p : String) : String :=
  replaceSub (basename p) "SPECTRAL_IMAGE.TIF" "METADATA.XML"

/-- Raster.find_metadata_file.  The directory listing made by os.listdir is a
parameter fs : directory path to entries.  Scans the listing of the raster's
directory for the derived XML filename; the first hit is joined to the
directory, otherwise FileNotFoundError, modelled as the error message. -/
def find_metadata_file (fs : String → List String) (path : String) :
    Except String String :=
  let directory := dirname path
  let xml_filename := xml_filename_of path
  match (fs directory).find? (fun file => file == xml_filename) with
  | some file => Except.ok (path_join directory file)
  | none => Except.error "XML file not found."

/-! ### Loading (rasterio and the XML parser abstracted as a Disk record) -/

/-- The external world seen by load_from_file: os.listdir, the XML
read-and-parse step of get_metadata, and rasterio open/read. -/
structure Disk where
  listing : String → List String
  readXML : String → Metadata
  readRaster : String → Profile × Datacube

/-- Raster.load_from_file: capture profile and datacube from the raster file,
record path and basename, locate and parse the sidecar (propagating its
FileNotFoundError as none), and extract the wavelength vector. -/
def load_from_file (disk : Disk) (raster_path : String) : Option Raster :=
  let pc := disk.readRaster raster_path
  match find_metadata_file disk.listing raster_path with
  | Except.error _ => none
  | Except.ok xml_file_path =>
    let md := disk.readXML xml_file_path
    some { profile := some pc.1
           datacube := some pc.2
           path := some raster_path
           name := some (basename raster_path)
           metadata := some md
           wavelength := some (get_wavelengths md) }

/-- Raster.__init__: with a path, delegate to the given loader
(load_from_file); without one, store the remaining arguments verbatim and
leave path as None.  All arguments default to None as in Python. -/
def Raster.init (load : String → Option Raster)
    (path : Option String := none)
    (wavelength : Option (List ℚ) := none)
    (datacube : Option Datacube := none)
    (metadata : Option Metadata := none)
    (profile : Option Profile := none)
    (name : Option String := none) : Option Raster :=
  match path with
  | some p => load p
  | none =>
    some { wavelength := wavelength
           datacube := datacube
           metadata := metadata
           profile := profile
           name := name
           path := none }

/-! ### rescale (numpy broadcasting of a per-band scalar over rows/columns) -/

/-- Apply a scalar to every pixel of one band, as a (1,1)-shaped numpy operand
broadcasts over the rows and columns of that band. -/
def scaleBand (f : ℚ → ℚ → ℚ) (band : List (List ℚ)) (s : ℚ) :
    List (List ℚ) :=
  band.map (fun row => row.map (fun x => f x s))

/-- numpy broadcasting of cube OP v[:, None, None] over the band axis: the
lengths agree (elementwise zip), or either side has extent one (that side is
repeated); any other mismatch raises, modelled as none. -/
def broadcastOp (f : ℚ → ℚ → ℚ) (cube : Datacube) (v : List ℚ) :
    Option Datacube :=
  if cube.length = v.length then
    some (List.zipWith (scaleBand f) cube v)
  else if v.length = 1 then
    some (cube.map (fun band => scaleBand f band (v.headD 0)))
  else if cube.length = 1 then
    some (v.map (fun s => scaleBand f (cube.headD []) s))
  else none

/-- The value of datacube * gains[:, None, None] + offsets[:, None, None]
when the band counts agree (the elementwise branch of both broadcasts). -/
def rescaleCube (cube : Datacube) (g o : List ℚ) : Datacube :=
  List.zipWith (scaleBand (fun x s => x + s))
    (List.zipWith (scaleBand (fun x s => x * s)) cube g) o

/-- Raster.rescale: read gains and offsets from the metadata tree, set the
datacube to datacube * gains[:, None, None] + offsets[:, None, None], return
the updated object.  A missing metadata tree or datacube raises in Python,
modelled as none. -/
def Raster.rescale (r : Raster) : Option Raster :=
  match r.metadata, r.datacube with
  | some md, some cube =>
    let go := get_gains_and_offsets md
    match broadcastOp (fun x s => x * s) cube go.1 with
    | none => none
    | some scaled =>
      match broadcastOp (fun x s => x + s) scaled go.2 with
      | none => none
      | some cube2 => some { r with datacube := some cube2 }
  | _, _ => none

/-! ### Vector utilities (vector_utils.py) -/

/-- A vector layer: a CRS and a list of geometries.  The geometry type is a
parameter of the development. -/
structure GeoDataFrame (Geom : Type) where
  crs : CRS
  geometry : List Geom
  deriving DecidableEq, Repr

/-- geopandas GeoDataFrame.to_crs, an external collaborator: reprojects every
geometry with the given pointwise projection (source CRS, target CRS) and
stamps the target CRS on the result. -/
def GeoDataFrame.to_crs {Geom : Type} (proj : Geom → CRS → CRS → Geom)
    (gdf : GeoDataFrame Geom) (dst : CRS) : GeoDataFrame Geom :=
  { crs := dst, geometry := gdf.geometry.map (fun g => proj g gdf.crs dst) }

/-- reproject_gdf: reproject the GeoDataFrame to dst_crs when its CRS differs,
otherwise return it unchanged.  dst_crs defaults to EPSG 4326. -/
def reproject_gdf {Geom : Type} (proj : Geom → CRS → CRS → Geom)
    (gdf : GeoDataFrame Geom)
    (dst_crs : CRS := CRS.from_epsg 4326) : GeoDataFrame Geom :=
  if gdf.crs ≠ dst_crs then gdf.to_crs proj dst_crs else gdf

/-- numpy shape[1] of a band-major cube: the row count of its first band. -/
def shape1 (cube : Datacube) : ℕ := (cube.headD []).length

/-- numpy shape[2] of a band-major cube: the column count of its first row. -/
def shape2 (cube : Datacube) : ℕ := ((cube.headD []).headD []).length

/-- clip_raster: reproject the polygon to the raster's CRS, run the external
masking primitive (a parameter maskFn standing for rasterio mask with
crop=True, fed through the transient in-memory dataset) on the cube and the
polygon's geometries, then overwrite the raster's datacube and, in a copy of
the profile, its height, width and transform.  A missing profile or datacube
raises in Python, modelled as none. -/
def clip_raster {Geom : Type} (proj : Geom → CRS → CRS → Geom)
    (maskFn : Profile → Datacube → List Geom → Datacube × Affine)
    (raster : Raster) (polygon : GeoDataFrame Geom) : Option Raster :=
  match raster.profile, raster.datacube with
  | some prof, some cube =>
    let polygon2 := reproject_gdf proj polygon prof.crs
    let res := maskFn prof cube polygon2.geometry
    let clipped_profile :=
      { prof with height := shape1 res.1
                  width := shape2 res.1
                  transform := res.2 }
    some { raster with datacube := some res.1, profile := some clipped_profile }
  | _, _ => none

/-- Pixel access: cube[b][i][j] with getD defaults (meaningful in range). -/
def px (cube : Datacube) (b i j : ℕ) : ℚ :=
  ((cube.getD b []).getD i []).getD j 0

/-! ### Concrete sample data used to instantiate the theorems -/

/-- A sample one-band profile. -/
def sampleProfile : Profile :=
  { driver := "GTiff", dtype := "uint16", nodata := none, width := 1,
    height := 1, count := 1, crs := ⟨32633⟩, transform := ⟨1, 0, 0, 0, 1, 0⟩ }

/-- A sample one-band metadata tree with gain 2 and offset 1. -/
def sampleMD : Metadata := ⟨⟨⟨⟨[⟨500, 2, 1⟩]⟩⟩⟩⟩

/-- A sample loaded raster with a single pixel of value 3. -/
def sampleRaster : Raster :=
  { wavelength := some [500], datacube := some [[[3]]],
    metadata := some sampleMD, profile := some sampleProfile,
    name := some "S", path := some "p/S" }

/-- A one-band metadata tree with gain -1 and offset 5: applying the affine
calibration twice is then the identity map. -/
def cexMD : Metadata := ⟨⟨⟨⟨[⟨500, -1, 5⟩]⟩⟩⟩⟩

/-- A raster carrying cexMD and a single pixel of value 3. -/
def cexRaster : Raster :=
  { wavelength := some [500], datacube := some [[[3]]],
    metadata := some cexMD, profile := none, name := none, path := none }

/-- A sample disk: one directory holding the sidecar, the sample metadata as
parse result, and a one-pixel raster file. -/
def cDisk : Disk :=
  { listing := fun _ => ["A_METADATA.XML"]
    readXML := fun _ => sampleMD
    readRaster := fun _ => (sampleProfile, [[[3]]]) }

/-- The raster produced by loading A_SPECTRAL_IMAGE.TIF from cDisk. -/
def cR : Raster :=
  { wavelength := some [500], datacube := some [[[3]]],
    metadata := some sampleMD, profile := some sampleProfile,
    name := some "A_SPECTRAL_IMAGE.TIF", path := some "A_SPECTRAL_IMAGE.TIF" }

/-- A sample masking primitive: returns the cube unchanged with a fixed
clipped transform. -/
def cMask : Profile → Datacube → List Unit → Datacube × Affine :=
  fun _ c _ => (c, ⟨2, 0, 0, 0, 2, 0⟩)

/-- A sample clip polygon already in the raster's CRS. -/
def cPoly : GeoDataFrame Unit := ⟨⟨32633⟩, []⟩

/-- The sample profile after clipping: height, width and transform updated. -/
def cProf2 : Profile :=
  { sampleProfile with height := 1, width := 1, transform := ⟨2, 0, 0, 0, 2, 0⟩ }

/-- The raster produced by clipping sampleRaster with cMask and cPoly. -/
def cClipped : Raster :=
  { sampleRaster with datacube := some [[[3]]], profile := some cProf2 }

/-- A sample directory listing that holds the derived sidecar name. -/
def cFS : String → List String := fun _ => ["E_METADATA.XML"]

/-- A second listing that agrees with cFS on the root directory only. -/
def cFS2 : String → List String :=
  fun d => if d = "" then ["E_METADATA.XML"] else []

end RSDemo

namespace RSDemo

/-! ### Helper lemmas -/

/-- find? with an equality test returns the sought element iff it occurs. -/
theorem find?_beq_eq (x : String) :
    ∀ l : List String, l.find? (fun a => a == x) = if x ∈ l then some x else none
  | [] => by simp
  | a :: l => by
    by_cases h : a = x
    · subst h
      simp
    · rw [List.find?_cons_of_neg _ (by simp [h]), find?_beq_eq x l]
      by_cases hm : x ∈ l
      · rw [if_pos hm, if_pos (List.mem_cons_of_mem a hm)]
      · rw [if_neg hm, if_neg (by simp [hm]; exact fun e => h e.symm)]

/-- broadcastOp takes the elementwise branch when the band counts agree. -/
theorem broadcastOp_eq_of_length (f : ℚ → ℚ → ℚ) (cube : Datacube)
    (v : List ℚ) (h : cube.length = v.length) :
    broadcastOp f cube v = some (List.zipWith (scaleBand f) cube v) := by
  unfold broadcastOp
  rw [if_pos h]

/-- Band access through a zipWith of scaleBand, in range. -/
theorem getD_zipWith_scaleBand (f : ℚ → ℚ → ℚ) (cube : Datacube) (v : List ℚ)
    (b : ℕ) (hb : b < cube.length) (hbv : b < v.length) :
    (List.zipWith (scaleBand f) cube v).getD b []
      = scaleBand f (cube.getD b []) (v.getD b 0) := by
  rw [List.getD_eq_getElem _ _ (by rw [List.length_zipWith]; omega),
    List.getElem_zipWith, List.getD_eq_getElem _ _ hb, List.getD_eq_getElem _ _ hbv]

/-- Row access through scaleBand, in range. -/
theorem getD_scaleBand (f : ℚ → ℚ → ℚ) (band : List (List ℚ)) (s : ℚ) (i : ℕ)
    (hi : i < band.length) :
    (scaleBand f band s).getD i [] = (band.getD i []).map (fun x => f x s) := by
  unfold scaleBand
  rw [List.getD_eq_getElem _ _ (by simpa using hi), List.getElem_map,
    List.getD_eq_getElem _ _ hi]

/-- Entry access through a mapped row, in range. -/
theorem getD_map_rat (g : ℚ → ℚ) (row : List ℚ) (j : ℕ) (hj : j < row.length) :
    (row.map g).getD j 0 = g (row.getD j 0) := by
  rw [List.getD_eq_getElem _ _ (by simpa using hj), List.getElem_map,
    List.getD_eq_getElem _ _ hj]

/-- scaleBand preserves the row count of a band. -/
theorem scaleBand_length (f : ℚ → ℚ → ℚ) (band : List (List ℚ)) (s : ℚ) :
    (scaleBand f band s).length = band.length :=
  List.length_map _ _

/-- Pixel access through a zipWith of scaleBand, in range. -/
theorem px_zipWith_scaleBand (f : ℚ → ℚ → ℚ) (cube : Datacube) (v : List ℚ)
    (b i j : ℕ) (hb : b < cube.length) (hbv : b < v.length)
    (hi : i < (cube.getD b []).length)
    (hj : j < ((cube.getD b []).getD i []).length) :
    px (List.zipWith (scaleBand f) cube v) b i j
      = f (px cube b i j) (v.getD b 0) := by
  unfold px
  rw [getD_zipWith_scaleBand f cube v b hb hbv, getD_scaleBand f _ _ i hi,
    getD_map_rat _ _ j hj]

/-- The gain vector read from a metadata tree has one entry per band. -/
theorem gains_length (md : Metadata) :
    (get_gains_and_offsets md).1.length = md.bands.length := by
  simp [get_gains_and_offsets]

/-- The offset vector read from a metadata tree has one entry per band. -/
theorem offsets_length (md : Metadata) :
    (get_gains_and_offsets md).2.length = md.bands.length := by
  simp [get_gains_and_offsets]

/-- When the band counts agree, rescale succeeds and the new datacube is the
multiply-then-add composite of the two broadcast steps. -/
theorem rescale_eq (r : Raster) (md : Metadata) (cube : Datacube)
    (hm : r.metadata = some md) (hd : r.datacube = some cube)
    (hlen : md.bands.length = cube.length) :
    r.rescale =
      some { r with datacube := some (rescaleCube cube (get_gains_and_offsets md).1 (get_gains_and_offsets md).2) } := by
  have hg : cube.length = (get_gains_and_offsets md).1.length := by
    rw [gains_length]
    exact hlen.symm
  have ht : (List.zipWith (scaleBand (fun x s => x * s)) cube
      (get_gains_and_offsets md).1).length
      = (get_gains_and_offsets md).2.length := by
    rw [List.length_zipWith, gains_length, offsets_length]
    omega
  unfold Raster.rescale
  rw [hm, hd]
  dsimp only
  rw [broadcastOp_eq_of_length _ _ _ hg]
  dsimp only
  rw [broadcastOp_eq_of_length _ _ _ ht]
  rfl

/-- Band count of the composite multiply-then-add cube. -/
theorem applyStep_length (cube : Datacube) (g o : List ℚ)
    (hg : g.length = cube.length) (ho : o.length = cube.length) :
    (rescaleCube cube g o).length = cube.length := by
  unfold rescaleCube
  rw [List.length_zipWith, List.length_zipWith]
  omega

/-- Row count of a band of the composite cube, in range. -/
theorem applyStep_bandLen (cube : Datacube) (g o : List ℚ) (b : ℕ)
    (hg : g.length = cube.length) (ho : o.length = cube.length)
    (hb : b < cube.length) :
    ((rescaleCube cube g o).getD b []).length = (cube.getD b []).length := by
  unfold rescaleCube
  rw [getD_zipWith_scaleBand _ _ _ b (by rw [List.length_zipWith]; omega) (by omega),
    getD_zipWith_scaleBand _ _ _ b hb (by omega)]
  rw [scaleBand_length, scaleBand_length]

/-- Column count of a row of the composite cube, in range. -/
theorem applyStep_rowLen (cube : Datacube) (g o : List ℚ) (b i : ℕ)
    (hg : g.length = cube.length) (ho : o.length = cube.length)
    (hb : b < cube.length) (hi : i < (cube.getD b []).length) :
    (((rescaleCube cube g o).getD b []).getD i []).length
      = ((cube.getD b []).getD i []).length := by
  unfold rescaleCube
  rw [getD_zipWith_scaleBand _ _ _ b (by rw [List.length_zipWith]; omega) (by omega),
    getD_zipWith_scaleBand _ _ _ b hb (by omega),
    getD_scaleBand _ _ _ i (by rw [scaleBand_length]; exact hi),
    getD_scaleBand _ _ _ i hi]
  rw [List.length_map, List.length_map]

/-- Pixel values of the composite cube: each pixel becomes x * gain + offset,
with the band's gain and offset. -/
theorem applyStep_px (cube : Datacube) (g o : List ℚ) (b i j : ℕ)
    (hg : g.length = cube.length) (ho : o.length = cube.length)
    (hb : b < cube.length) (hi : i < (cube.getD b []).length)
    (hj : j < ((cube.getD b []).getD i []).length) :
    px (rescaleCube cube g o) b i j
      = px cube b i j * g.getD b 0 + o.getD b 0 := by
  unfold rescaleCube
  have hbt : b < (List.zipWith (scaleBand (fun x s => x * s)) cube g).length := by
    rw [List.length_zipWith]
    omega
  have htb : ((List.zipWith (scaleBand (fun x s => x * s)) cube g).getD b []).length
      = (cube.getD b []).length := by
    rw [getD_zipWith_scaleBand _ _ _ b hb (by omega)]
    rw [scaleBand_length]
  have hti : (((List.zipWith (scaleBand (fun x s => x * s)) cube g).getD b []).getD i []).length
      = ((cube.getD b []).getD i []).length := by
    rw [getD_zipWith_scaleBand _ _ _ b hb (by omega),
      getD_scaleBand _ _ _ i hi]
    rw [List.length_map]
  rw [px_zipWith_scaleBand _ _ _ b i j hbt (by omega) (by rw [htb]; exact hi)
      (by rw [hti]; exact hj),
    px_zipWith_scaleBand _ _ _ b i j hb (by omega) hi hj]

/-- Two datacubes of identical shape are equal iff they agree pixelwise. -/
theorem datacube_eq_iff_px (c1 c2 : Datacube)
    (hlen : c1.length = c2.length)
    (hband : ∀ b, b < c2.length → (c1.getD b []).length = (c2.getD b []).length)
    (hrow : ∀ b, b < c2.length → ∀ i, i < (c2.getD b []).length →
      ((c1.getD b []).getD i []).length = ((c2.getD b []).getD i []).length) :
    c1 = c2 ↔ ∀ b, b < c2.length → ∀ i, i < (c2.getD b []).length →
      ∀ j, j < ((c2.getD b []).getD i []).length → px c1 b i j = px c2 b i j := by
  constructor
  · rintro rfl
    intro b _ i _ j _
    rfl
  · intro h
    refine List.ext_getElem hlen ?_
    intro b hb1 hb2
    have hgb1 : c1.getD b [] = c1[b] := List.getD_eq_getElem c1 [] hb1
    have hgb2 : c2.getD b [] = c2[b] := List.getD_eq_getElem c2 [] hb2
    refine List.ext_getElem (by rw [← hgb1, ← hgb2]; exact hband b hb2) ?_
    intro i hi1 hi2
    have hgi1 : (c1.getD b []).getD i [] = c1[b][i] := by
      rw [hgb1]
      exact List.getD_eq_getElem _ [] hi1
    have hgi2 : (c2.getD b []).getD i [] = c2[b][i] := by
      rw [hgb2]
      exact List.getD_eq_getElem _ [] hi2
    refine List.ext_getElem
      (by rw [← hgi1, ← hgi2]; exact hrow b hb2 i (by rw [hgb2]; exact hi2)) ?_
    intro j hj1 hj2
    have hv := h b hb2 i (by rw [hgb2]; exact hi2) j (by rw [hgi2]; exact hj2)
    unfold px at hv
    rw [hgi1, hgi2, List.getD_eq_getElem _ 0 hj1, List.getD_eq_getElem _ 0 hj2] at hv
    exact hv

/-! ### Claim theorems -/

/-- C10: constructing a Raster with path None stores the given wavelength,
datacube, metadata, profile and name verbatim, performs no file access (the
result does not depend on the loader) and sets path to None; with no
arguments at all, every field is None. -/
theorem raster_init_spec :
    (∀ (load : String → Option Raster) (w : Option (List ℚ)) (d : Option Datacube)
       (m : Option Metadata) (pr : Option Profile) (n : Option String),
       Raster.init load none w d m pr n =
         some { wavelength := w, datacube := d, metadata := m,
                profile := pr, name := n, path := none }) ∧
    (∀ load : String → Option Raster,
       Raster.init load =
         some { wavelength := none, datacube := none, metadata := none,
                profile := none, name := none, path := none }) :=
  ⟨fun _ _ _ _ _ _ => rfl, fun _ => rfl⟩

/-- C8: calling reproject_gdf without an explicit target CRS is the same call
with EPSG 4326, and when a reprojection happens under that default the result
carries the EPSG 4326 CRS. -/
theorem reproject_gdf_default {Geom : Type} (proj : Geom → CRS → CRS → Geom)
    (gdf : GeoDataFrame Geom) :
    reproject_gdf proj gdf = reproject_gdf proj gdf (CRS.from_epsg 4326) ∧
    (gdf.crs ≠ CRS.from_epsg 4326 →
      (reproject_gdf proj gdf).crs = CRS.from_epsg 4326) := by
  refine ⟨rfl, fun h => ?_⟩
  unfold reproject_gdf
  rw [if_pos h]
  rfl

/-- Witness for C8 on a concrete GeoDataFrame not in EPSG 4326. -/
theorem reproject_gdf_default_witness :
    (reproject_gdf (fun (g : Unit) _ _ => g)
      (⟨⟨32633⟩, []⟩ : GeoDataFrame Unit)).crs = CRS.from_epsg 4326 :=
  (reproject_gdf_default (fun g _ _ => g) ⟨⟨32633⟩, []⟩).2 (by decide)

/-- C5: a vector layer already in the target CRS is returned unchanged; when
the CRSs differ every geometry is reprojected to the target CRS. -/
theorem reproject_gdf_cases {Geom : Type} (proj : Geom → CRS → CRS → Geom)
    (gdf : GeoDataFrame Geom) (dst : CRS) :
    (gdf.crs = dst → reproject_gdf proj gdf dst = gdf) ∧
    (gdf.crs ≠ dst → reproject_gdf proj gdf dst =
      { crs := dst, geometry := gdf.geometry.map (fun g => proj g gdf.crs dst) }) := by
  constructor
  · intro h
    unfold reproject_gdf
    rw [if_neg (not_not_intro h)]
  · intro h
    unfold reproject_gdf
    rw [if_pos h]
    rfl

/-- Witness for C5: a matching-CRS layer passes through, a differing one is
reprojected pointwise. -/
theorem reproject_gdf_cases_witness :
    reproject_gdf (fun (g : ℕ) _ _ => g + 1)
        (⟨⟨4326⟩, [7]⟩ : GeoDataFrame ℕ) (CRS.from_epsg 4326) = ⟨⟨4326⟩, [7]⟩ ∧
    reproject_gdf (fun (g : ℕ) _ _ => g + 1)
        (⟨⟨32633⟩, [7]⟩ : GeoDataFrame ℕ) (CRS.from_epsg 4326) = ⟨⟨4326⟩, [8]⟩ :=
  ⟨(reproject_gdf_cases (fun g _ _ => g + 1) ⟨⟨4326⟩, [7]⟩ (CRS.from_epsg 4326)).1
      (by decide),
   ((reproject_gdf_cases (fun g _ _ => g + 1) ⟨⟨32633⟩, [7]⟩ (CRS.from_epsg 4326)).2
      (by decide)).trans (by decide)⟩

/-- C3: when the derived sidecar filename is absent from the raster's
directory listing, find_metadata_file raises exactly the FileNotFoundError
with message XML file not found, and loading the raster fails. -/
theorem load_missing_sidecar (disk : Disk) (p : String)
    (h : xml_filename_of p ∉ disk.listing (dirname p)) :
    find_metadata_file disk.listing p = Except.error "XML file not found." ∧
    load_from_file disk p = none := by
  have hfind : find_metadata_file disk.listing p
      = Except.error "XML file not found." := by
    unfold find_metadata_file
    dsimp only
    have hnone : (disk.listing (dirname p)).find?
        (fun file => file == xml_filename_of p) = none := by
      rw [List.find?_eq_none]
      intro x hx
      simp only [beq_iff_eq]
      intro hxe
      exact h (hxe ▸ hx)
    rw [hnone]
  refine ⟨hfind, ?_⟩
  unfold load_from_file
  dsimp only
  rw [hfind]

/-- Witness for C3 on a disk whose listing is empty everywhere. -/
theorem load_missing_sidecar_witness :
    find_metadata_file (Disk.mk (fun _ => []) (fun _ => sampleMD)
        (fun _ => (sampleProfile, [[[3]]]))).listing "p/A_SPECTRAL_IMAGE.TIF"
      = Except.error "XML file not found." ∧
    load_from_file (Disk.mk (fun _ => []) (fun _ => sampleMD)
        (fun _ => (sampleProfile, [[[3]]]))) "p/A_SPECTRAL_IMAGE.TIF" = none :=
  load_missing_sidecar
    (Disk.mk (fun _ => []) (fun _ => sampleMD) (fun _ => (sampleProfile, [[[3]]])))
    "p/A_SPECTRAL_IMAGE.TIF" (by simp)

/-- C7: find_metadata_file succeeds exactly when the basename with
SPECTRAL_IMAGE.TIF replaced by METADATA.XML occurs in the listing of the
raster's own directory, returning that name joined to the directory, and its
outcome depends only on the listing of that directory. -/
theorem find_metadata_file_spec (fs : String → List String) (p : String) :
    (find_metadata_file fs p =
      if xml_filename_of p ∈ fs (dirname p)
      then Except.ok (path_join (dirname p) (xml_filename_of p))
      else Except.error "XML file not found.") ∧
    (∀ fs' : String → List String, fs' (dirname p) = fs (dirname p) →
      find_metadata_file fs' p = find_metadata_file fs p) := by
  constructor
  · unfold find_metadata_file
    dsimp only
    rw [find?_beq_eq]
    by_cases hmem : xml_filename_of p ∈ fs (dirname p)
    · rw [if_pos hmem, if_pos hmem]
    · rw [if_neg hmem, if_neg hmem]
  · intro fs' hfs
    unfold find_metadata_file
    dsimp only
    rw [hfs]

/-- C9: whenever rescale succeeds, only the datacube changes: wavelength,
metadata, profile, name and path are untouched. -/
theorem rescale_frame (r r' : Raster) (h : r.rescale = some r') :
    r'.wavelength = r.wavelength ∧ r'.metadata = r.metadata ∧
    r'.profile = r.profile ∧ r'.name = r.name ∧ r'.path = r.path := by
  unfold Raster.rescale at h
  rcases hm : r.metadata with _ | md <;> rw [hm] at h
  · simp at h
  · rcases hd : r.datacube with _ | cube <;> rw [hd] at h
    · simp at h
    · dsimp only at h
      rcases hb1 : broadcastOp (fun x s => x * s) cube
          (get_gains_and_offsets md).1 with _ | scaled <;> rw [hb1] at h
      · simp at h
      · dsimp only at h
        rcases hb2 : broadcastOp (fun x s => x + s) scaled
            (get_gains_and_offsets md).2 with _ | cube2 <;> rw [hb2] at h
        · simp at h
        · dsimp only at h
          obtain rfl := Option.some.inj h
          exact ⟨rfl, rfl, rfl, rfl, rfl⟩

/-- Witness for C9 on the sample raster. -/
theorem rescale_frame_witness :
    ({ sampleRaster with datacube := some [[[7]]] } : Raster).wavelength
        = sampleRaster.wavelength ∧
    ({ sampleRaster with datacube := some [[[7]]] } : Raster).metadata
        = sampleRaster.metadata ∧
    ({ sampleRaster with datacube := some [[[7]]] } : Raster).profile
        = sampleRaster.profile ∧
    ({ sampleRaster with datacube := some [[[7]]] } : Raster).name
        = sampleRaster.name ∧
    ({ sampleRaster with datacube := some [[[7]]] } : Raster).path
        = sampleRaster.path :=
  rescale_frame sampleRaster { sampleRaster with datacube := some [[[7]]] }
    (by norm_num [Raster.rescale, sampleRaster, sampleMD, get_gains_and_offsets,
      Metadata.bands, broadcastOp, scaleBand, sampleProfile])

/-- C1: when the metadata's band table matches the cube's band count, rescale
returns the input object with only its datacube replaced, and every pixel of
the new cube is old pixel * band gain + band offset; the new cube keeps the
shape of the old one. -/
theorem rescale_correct (r r' : Raster) (md : Metadata) (cube : Datacube)
    (hm : r.metadata = some md) (hd : r.datacube = some cube)
    (hlen : md.bands.length = cube.length)
    (hres : r.rescale = some r') :
    ∃ cube2 : Datacube,
      r' = { r with datacube := some cube2 } ∧
      cube2.length = cube.length ∧
      ∀ b, b < cube.length →
        (cube2.getD b []).length = (cube.getD b []).length ∧
        ∀ i, i < (cube.getD b []).length →
          ((cube2.getD b []).getD i []).length
              = ((cube.getD b []).getD i []).length ∧
          ∀ j, j < ((cube.getD b []).getD i []).length →
            px cube2 b i j =
              px cube b i j * (get_gains_and_offsets md).1.getD b 0
                + (get_gains_and_offsets md).2.getD b 0 := by
  have hg : (get_gains_and_offsets md).1.length = cube.length :=
    (gains_length md).trans hlen
  have ho : (get_gains_and_offsets md).2.length = cube.length :=
    (offsets_length md).trans hlen
  rw [rescale_eq r md cube hm hd hlen] at hres
  refine ⟨_, (Option.some.inj hres).symm, applyStep_length cube _ _ hg ho, ?_⟩
  intro b hb
  refine ⟨applyStep_bandLen cube _ _ b hg ho hb, ?_⟩
  intro i hi
  exact ⟨applyStep_rowLen cube _ _ b i hg ho hb hi,
    fun j hj => applyStep_px cube _ _ b i j hg ho hb hi hj⟩

/-- Witness for C1 on the sample raster: 3 * 2 + 1 = 7. -/
theorem rescale_correct_witness :
    ∃ cube2 : Datacube,
      ({ sampleRaster with datacube := some [[[7]]] } : Raster)
          = { sampleRaster with datacube := some cube2 } ∧
      cube2.length = 1 ∧ px cube2 0 0 0 = 7 := by
  obtain ⟨c2, h1, h2, h3⟩ := rescale_correct sampleRaster
      { sampleRaster with datacube := some [[[7]]] } sampleMD [[[3]]]
      rfl rfl (by decide)
      (by norm_num [Raster.rescale, sampleRaster, sampleMD, get_gains_and_offsets,
        Metadata.bands, broadcastOp, scaleBand, sampleProfile])
  obtain ⟨-, hrow⟩ := h3 0 (by decide)
  obtain ⟨-, hval⟩ := hrow 0 (by decide)
  exact ⟨c2, h1, h2.trans rfl,
    (hval 0 (by decide)).trans
      (by norm_num [px, get_gains_and_offsets, sampleMD, Metadata.bands])⟩

/-- C2: clip_raster overwrites only the datacube and, in the profile, only
height, width and transform (height and width being the row and column counts
of the clipped cube); CRS, band count, pixel type, driver and nodata of the
profile, and the name, path, wavelength and metadata of the asset, are
unchanged. -/
theorem clip_raster_frame {Geom : Type} (proj : Geom → CRS → CRS → Geom)
    (maskFn : Profile → Datacube → List Geom → Datacube × Affine)
    (r : Raster) (poly : GeoDataFrame Geom) (prof : Profile) (cube : Datacube)
    (r' : Raster)
    (hp : r.profile = some prof) (hd : r.datacube = some cube)
    (hres : clip_raster proj maskFn r poly = some r') :
    r'.datacube
        = some (maskFn prof cube (reproject_gdf proj poly prof.crs).geometry).1 ∧
    r'.profile
        = some { prof with
            height := shape1 (maskFn prof cube
              (reproject_gdf proj poly prof.crs).geometry).1
            width := shape2 (maskFn prof cube
              (reproject_gdf proj poly prof.crs).geometry).1
            transform := (maskFn prof cube
              (reproject_gdf proj poly prof.crs).geometry).2 } ∧
    r'.profile.map Profile.crs = some prof.crs ∧
    r'.profile.map Profile.count = some prof.count ∧
    r'.profile.map Profile.dtype = some prof.dtype ∧
    r'.profile.map Profile.driver = some prof.driver ∧
    r'.profile.map Profile.nodata = some prof.nodata ∧
    r'.wavelength = r.wavelength ∧ r'.metadata = r.metadata ∧
    r'.name = r.name ∧ r'.path = r.path := by
  unfold clip_raster at hres
  rw [hp, hd] at hres
  dsimp only at hres
  obtain rfl := Option.some.inj hres
  exact ⟨rfl, rfl, rfl, rfl, rfl, rfl, rfl, rfl, rfl, rfl, rfl⟩

/-- Witness for C2 on the sample raster clipped by the sample polygon. -/
theorem clip_raster_frame_witness :
    cClipped.datacube = some (cMask sampleProfile [[[3]]]
      (reproject_gdf (fun (g : Unit) _ _ => g) cPoly sampleProfile.crs).geometry).1 ∧
    cClipped.wavelength = sampleRaster.wavelength ∧
    cClipped.name = sampleRaster.name := by
  have h := clip_raster_frame (fun (g : Unit) _ _ => g) cMask sampleRaster cPoly
    sampleProfile [[[3]]] cClipped rfl rfl
    (by norm_num [clip_raster, sampleRaster, sampleProfile, cMask, cPoly,
      reproject_gdf, cClipped, cProf2, shape1, shape2])
  exact ⟨h.1, h.2.2.2.2.2.2.2.1, h.2.2.2.2.2.2.2.2.2.1⟩

/-- C6: for a loaded raster whose sidecar band table matches the cube's band
count, the wavelength vector and the gain and offset vectors all have one
entry per band of the cube, and the band count, wavelength and metadata
survive rescale and clip (the masking primitive preserving band count, as the
delegated rasterio mask does). -/
theorem band_count_invariant (disk : Disk) (p : String) (r r1 : Raster)
    (md : Metadata) (cube : Datacube) (prof : Profile)
    {Geom : Type} (proj : Geom → CRS → CRS → Geom)
    (maskFn : Profile → Datacube → List Geom → Datacube × Affine)
    (poly : GeoDataFrame Geom) (r2 : Raster)
    (hload : load_from_file disk p = some r)
    (hmd : r.metadata = some md) (hcube : r.datacube = some cube)
    (hvalid : md.bands.length = cube.length)
    (hres : r.rescale = some r1)
    (hprof : r.profile = some prof)
    (hclip : clip_raster proj maskFn r poly = some r2)
    (hmask : (maskFn prof cube
      (reproject_gdf proj poly prof.crs).geometry).1.length = cube.length) :
    r.wavelength = some (get_wavelengths md) ∧
    (get_wavelengths md).length = cube.length ∧
    (get_gains_and_offsets md).1.length = cube.length ∧
    (get_gains_and_offsets md).2.length = cube.length ∧
    r1.datacube.map List.length = some cube.length ∧
    r1.wavelength = r.wavelength ∧ r1.metadata = r.metadata ∧
    r2.datacube.map List.length = some cube.length ∧
    r2.wavelength = r.wavelength ∧ r2.metadata = r.metadata := by
  have hg : (get_gains_and_offsets md).1.length = cube.length :=
    (gains_length md).trans hvalid
  have ho : (get_gains_and_offsets md).2.length = cube.length :=
    (offsets_length md).trans hvalid
  have hwl : r.wavelength = some (get_wavelengths md) := by
    unfold load_from_file at hload
    rcases hfind : find_metadata_file disk.listing p with e | x <;>
      rw [hfind] at hload
    · simp at hload
    · dsimp only at hload
      obtain rfl := Option.some.inj hload
      obtain rfl := Option.some.inj hmd
      rfl
  refine ⟨hwl, ?_, hg, ho, ?_, ?_, ?_, ?_, ?_, ?_⟩
  · unfold get_wavelengths
    rw [List.length_map]
    exact hvalid
  · rw [rescale_eq r md cube hmd hcube hvalid] at hres
    obtain rfl := Option.some.inj hres
    simp only [Option.map_some']
    rw [applyStep_length cube _ _ hg ho]
  · rw [rescale_eq r md cube hmd hcube hvalid] at hres
    obtain rfl := Option.some.inj hres
    rfl
  · rw [rescale_eq r md cube hmd hcube hvalid] at hres
    obtain rfl := Option.some.inj hres
    rfl
  · unfold clip_raster at hclip
    rw [hprof, hcube] at hclip
    dsimp only at hclip
    obtain rfl := Option.some.inj hclip
    simp only [Option.map_some']
    rw [hmask]
  · unfold clip_raster at hclip
    rw [hprof, hcube] at hclip
    dsimp only at hclip
    obtain rfl := Option.some.inj hclip
    rfl
  · unfold clip_raster at hclip
    rw [hprof, hcube] at hclip
    dsimp only at hclip
    obtain rfl := Option.some.inj hclip
    rfl

/-- Witness for C6 on the sample disk: one band throughout load, rescale and
clip. -/
theorem band_count_invariant_witness :
    cR.wavelength = some (get_wavelengths sampleMD) ∧
    (get_wavelengths sampleMD).length = 1 ∧
    ({ cR with datacube := some [[[7]]] } : Raster).datacube.map List.length
      = some 1 := by
  have h := band_count_invariant cDisk "A_SPECTRAL_IMAGE.TIF" cR
    { cR with datacube := some [[[7]]] } sampleMD [[[3]]] sampleProfile
    (fun (g : Unit) _ _ => g) cMask cPoly
    { cR with datacube := some [[[3]]], profile := some cProf2 }
    (by decide) rfl rfl (by decide)
    (by norm_num [Raster.rescale, cR, sampleMD, get_gains_and_offsets,
      Metadata.bands, broadcastOp, scaleBand, sampleProfile])
    rfl
    (by norm_num [clip_raster, cR, sampleProfile, cMask, cPoly,
      reproject_gdf, cProf2, shape1, shape2])
    (by decide)
  exact ⟨h.1, (h.2.1).trans (by decide), (h.2.2.2.2.1).trans (by decide)⟩

/-- C4 counterexample: with gain -1 and offset 5 the calibration is an
involution, so rescaling twice returns the raster unchanged although the gain
is not 1 and the offset is not 0. -/
theorem rescale_twice_not_idempotent_cex :
    cexRaster.rescale.bind Raster.rescale = some cexRaster ∧
    get_gains_and_offsets cexMD ≠ ([1], [0]) := by
  constructor
  · norm_num [cexRaster, cexMD, Raster.rescale, get_gains_and_offsets,
      Metadata.bands, broadcastOp, scaleBand, Option.bind]
  · norm_num [get_gains_and_offsets, cexMD, Metadata.bands]

/-- C4 amended: with matching band counts, the cube after two rescales equals
the input cube exactly when every in-range pixel x of band b satisfies
x * g * g + o * g + o = x for that band's gain g and offset o; gain 1 with
offset 0 is one such case but not the only one. -/
theorem rescale_twice_char (r r1 r2 : Raster) (md : Metadata) (cube : Datacube)
    (hm : r.metadata = some md) (hd : r.datacube = some cube)
    (hlen : md.bands.length = cube.length)
    (h1 : r.rescale = some r1) (h2 : r1.rescale = some r2) :
    r2.datacube = some cube ↔
      ∀ b, b < cube.length → ∀ i, i < (cube.getD b []).length →
        ∀ j, j < ((cube.getD b []).getD i []).length →
          px cube b i j * (get_gains_and_offsets md).1.getD b 0
              * (get_gains_and_offsets md).1.getD b 0
            + (get_gains_and_offsets md).2.getD b 0
              * (get_gains_and_offsets md).1.getD b 0
            + (get_gains_and_offsets md).2.getD b 0
          = px cube b i j := by
  have hg : (get_gains_and_offsets md).1.length = cube.length :=
    (gains_length md).trans hlen
  have ho : (get_gains_and_offsets md).2.length = cube.length :=
    (offsets_length md).trans hlen
  have hC1len := applyStep_length cube (get_gains_and_offsets md).1
    (get_gains_and_offsets md).2 hg ho
  have hg1 : (get_gains_and_offsets md).1.length
      = (rescaleCube cube (get_gains_and_offsets md).1
          (get_gains_and_offsets md).2).length := hg.trans hC1len.symm
  have ho1 : (get_gains_and_offsets md).2.length
      = (rescaleCube cube (get_gains_and_offsets md).1
          (get_gains_and_offsets md).2).length := ho.trans hC1len.symm
  have hband1 : ∀ b, b < cube.length →
      ((rescaleCube cube (get_gains_and_offsets md).1
          (get_gains_and_offsets md).2).getD b []).length
        = (cube.getD b []).length :=
    fun b hb => applyStep_bandLen cube _ _ b hg ho hb
  have hrow1 : ∀ b, b < cube.length → ∀ i, i < (cube.getD b []).length →
      (((rescaleCube cube (get_gains_and_offsets md).1
          (get_gains_and_offsets md).2).getD b []).getD i []).length
        = ((cube.getD b []).getD i []).length :=
    fun b hb i hi => applyStep_rowLen cube _ _ b i hg ho hb hi
  rw [rescale_eq r md cube hm hd hlen] at h1
  obtain rfl := Option.some.inj h1
  rw [rescale_eq ({ r with datacube := some (rescaleCube cube
        (get_gains_and_offsets md).1 (get_gains_and_offsets md).2) } : Raster)
      md (rescaleCube cube (get_gains_and_offsets md).1
        (get_gains_and_offsets md).2) hm rfl (hlen.trans hC1len.symm)] at h2
  obtain rfl := Option.some.inj h2
  dsimp only
  rw [Option.some_inj]
  rw [datacube_eq_iff_px _ cube
    ((applyStep_length _ _ _ hg1 ho1).trans hC1len)
    (fun b hb => (applyStep_bandLen _ _ _ b hg1 ho1
      (by rw [hC1len]; exact hb)).trans (hband1 b hb))
    (fun b hb i hi => (applyStep_rowLen _ _ _ b i hg1 ho1
      (by rw [hC1len]; exact hb)
      (by rw [hband1 b hb]; exact hi)).trans (hrow1 b hb i hi))]
  have hpx2 : ∀ b, b < cube.length → ∀ i, i < (cube.getD b []).length →
      ∀ j, j < ((cube.getD b []).getD i []).length →
      px (rescaleCube (rescaleCube cube (get_gains_and_offsets md).1
          (get_gains_and_offsets md).2) (get_gains_and_offsets md).1
          (get_gains_and_offsets md).2) b i j
        = (px cube b i j * (get_gains_and_offsets md).1.getD b 0
            + (get_gains_and_offsets md).2.getD b 0)
            * (get_gains_and_offsets md).1.getD b 0
          + (get_gains_and_offsets md).2.getD b 0 := by
    intro b hb i hi j hj
    rw [applyStep_px _ _ _ b i j hg1 ho1
        (by rw [hC1len]; exact hb)
        (by rw [hband1 b hb]; exact hi)
        (by rw [hrow1 b hb i hi]; exact hj),
      applyStep_px cube _ _ b i j hg ho hb hi hj]
  constructor
  · intro h b hb i hi j hj
    have hv := h b hb i hi j hj
    rw [hpx2 b hb i hi j hj] at hv
    linear_combination hv
  · intro h b hb i hi j hj
    rw [hpx2 b hb i hi j hj]
    linear_combination h b hb i hi j hj

/-- Witness for the amended C4 on the gain -1, offset 5 raster: its pixel is
a fixed point of the squared calibration map. -/
theorem rescale_twice_char_witness :
    px [[[3]]] 0 0 0 * (get_gains_and_offsets cexMD).1.getD 0 0
        * (get_gains_and_offsets cexMD).1.getD 0 0
      + (get_gains_and_offsets cexMD).2.getD 0 0
        * (get_gains_and_offsets cexMD).1.getD 0 0
      + (get_gains_and_offsets cexMD).2.getD 0 0
      = px [[[3]]] 0 0 0 := by
  have h := (rescale_twice_char cexRaster
      { cexRaster with datacube := some [[[2]]] } cexRaster cexMD [[[3]]]
      rfl rfl (by decide)
      (by norm_num [Raster.rescale, cexRaster, cexMD, get_gains_and_offsets,
        Metadata.bands, broadcastOp, scaleBand])
      (by norm_num [Raster.rescale, cexRaster, cexMD, get_gains_and_offsets,
        Metadata.bands, broadcastOp, scaleBand])).mp rfl
  exact h 0 (by decide) 0 (by decide) 0 (by decide)

/-- Witness for C7 on a concrete raster filename and two listings agreeing on
the raster's directory. -/
theorem find_metadata_file_spec_witness :
    find_metadata_file cFS "E_SPECTRAL_IMAGE.TIF"
      = Except.ok "E_METADATA.XML" ∧
    find_metadata_file cFS2 "E_SPECTRAL_IMAGE.TIF"
      = find_metadata_file cFS "E_SPECTRAL_IMAGE.TIF" :=
  ⟨((find_metadata_file_spec cFS "E_SPECTRAL_IMAGE.TIF").1).trans (by rfl),
   (find_metadata_file_spec cFS "E_SPECTRAL_IMAGE.TIF").2 cFS2 (by decide)⟩

end RSDemo
